import Mathlib

/-!
Shallow embedding of the activity-monitoring and transaction-classification
core of the solana-wallet-tracker repository.

Sources embedded here:
  - src/src/monitors/transaction-parser.js  (TransactionParser)
  - src/src/monitors/solana-monitor.js      (SolanaMonitor)
  - src/src/utils/logger.js                 (constants block: program ids, types)
  - the StorageService dedup/address persistence (unnamed part_003)

JavaScript numbers are IEEE-754 doubles; integer values are kept exactly up
to 2^53 and rounded to nearest-even representable value beyond that.  The
`jsRound` function below models that rounding for the integer results of
`parseInt` and of integer subtraction, so balance arithmetic is embedded
faithfully rather than as exact integer arithmetic.
-/

namespace WalletTracker

/-! ### Constants (src/src/utils/logger.js, constants block) -/

def JUPITER_V6 : String := "JUP6LkbZbjS1jKKwapdHNy74zcZ3tLUZoi5QNyVTaV4"

def JUPITER_V4 : String := "JUP4Fb2cqiRUcaTHdrPC8h2gNsA2ETXiPDD33WcGuJB"

def RAYDIUM_AMM : String := "675kPX9MHTjS2zt1qfr1NYHuzeLXfQM9H24wFSUt1Mp8"

def RAYDIUM_CLMM : String := "CAMMCzo5YL8w4VFF8KVHrK22GGUQp5VhH5b9KmTcpY9"

def ORCA_WHIRLPOOL : String := "whirLbMiicVdio4qvUfM5KAg6Ct8VwpYzGff3uctyCc"

def METEORA : String := "M2mx93ekt1fmXSVkTrUL9xVFHkmME8HTUi5Cyc5aF7K"

def SERUM_V3 : String := "9xQeWvG816bUx9EPjHmaT23yvVM2ZWbrrpZb9PusVFin"

def OPENBOOK : String := "srmqPvymJeFKQ4zGQed1GFppgkRHL9kaELCbyksJtPX"

/-- Object.values(DEX_PROGRAM_IDS), in object-literal order. -/
def dexProgramIds : List String :=
  [JUPITER_V6, JUPITER_V4, RAYDIUM_AMM, RAYDIUM_CLMM,
   ORCA_WHIRLPOOL, METEORA, SERUM_V3, OPENBOOK]

def systemProgramId : String := "11111111111111111111111111111111"

def splTokenProgramId : String := "TokenkegQfeZyiNwAJbNbGKPFXCWuBvf9Ss623VQ5DA"

def ataProgramId : String := "ATokenGPvbdGVxr1b2hvZbsiqW5xWH25efTNsLJA8knL"

def solMint : String := "So11111111111111111111111111111111111111112"

/-- TRANSACTION_TYPES from the constants block. -/
inductive TxType where
  | SWAP
  | TRANSFER
  | NFT
  | DEFI
  | UNKNOWN
deriving DecidableEq

/-- The string stored into the `type` field by parseTransaction. -/
def TxType.toStr : TxType → String
  | .SWAP => "SWAP"
  | .TRANSFER => "TRANSFER"
  | .NFT => "NFT"
  | .DEFI => "DEFI"
  | .UNKNOWN => "UNKNOWN"

/-! ### IEEE-754 double rounding of integers

`parseInt` on a decimal string and subtraction of two integer-valued doubles
both produce the exact mathematical integer rounded to the nearest double
(ties to even).  For a nonnegative integer below 2^53 this is the identity;
above, the integer is rounded to the nearest representable multiple of a
power of two. -/

/-- Number of halvings needed to bring `n` below 2^53 (first argument is
fuel, always called with fuel at least that number of halvings). -/
def excessBits : Nat → Nat → Nat
  | 0, _ => 0
  | fuel + 1, n => if n < 2 ^ 53 then 0 else excessBits fuel (n / 2) + 1

/-- Round a nonnegative integer to the nearest IEEE-754 double
(ties to even), returned as the exact integer value of that double. -/
def jsRound (n : Nat) : Nat :=
  if n < 2 ^ 53 then n
  else
    let k := excessBits n n
    let p := 2 ^ k
    let q := n / p
    let r := n % p
    let half := p / 2
    if r < half then q * p
    else if half < r then (q + 1) * p
    else if q % 2 = 0 then q * p else (q + 1) * p

/-- Round a signed integer to the nearest IEEE-754 double. -/
def jsRoundInt (z : Int) : Int :=
  z.sign * (jsRound z.natAbs : Int)

theorem jsRound_small {n : Nat} (h : n < 2 ^ 53) : jsRound n = n := by
  unfold jsRound
  rw [if_pos h]

theorem jsRoundInt_small {z : Int} (h : z.natAbs < 2 ^ 53) : jsRoundInt z = z := by
  unfold jsRoundInt
  rw [jsRound_small h]
  exact Int.sign_mul_natAbs z

/-! ### Data model (RawTransaction envelope as read by the parser) -/

/-- One instruction; the parser reads only `programId`. -/
structure Instruction where
  programId : String
deriving DecidableEq

/-- One entry of `meta.preTokenBalances` and `meta.postTokenBalances`.
`amount` is the numeric value of the decimal string
`uiTokenAmount.amount` (a u64 raw amount on chain). -/
structure TokenBalance where
  owner : String
  mint : String
  amount : Nat
deriving DecidableEq

/-- The `meta` block of a fetched transaction.  Pre and post SOL balances
are indexed parallel to the account-key list; their values are the
integer values held by the JavaScript numbers. -/
structure TxMeta where
  preBalances : List Int
  postBalances : List Int
  preTokenBalances : List TokenBalance
  postTokenBalances : List TokenBalance
deriving DecidableEq

/-- A fetched transaction that has both `transaction` and `meta` present;
the null-envelope guard of parseTransaction is modelled by passing
`Option RawTransaction`. -/
structure RawTransaction where
  signatures : List String
  accountKeys : List String
  instructions : List Instruction
  blockTime : Option Int
  meta : TxMeta
deriving DecidableEq

/-! ### External collaborators (token and market-data services)

The classifier consults the token-metadata and price services; they are
modelled as read-only response functions supplied as an environment. -/

/-- Price data returned by marketDataService.getTokenPrice. -/
structure PriceData where
  price : ℚ
  marketCap : ℚ
deriving DecidableEq

/-- Token metadata returned by tokenService.getTokenMetadata. -/
structure TokenMetadata where
  symbol : String
  name : String
  decimals : Nat
deriving DecidableEq

/-- The collaborator responses visible to the classifier during one call. -/
structure Services where
  getTokenPrice : String → Option PriceData
  getTokenMetadata : String → Option TokenMetadata
  getTokenDecimals : String → Nat
deriving Inhabited

/-- tokenService.getTokenInfo: bundles metadata and price for a mint. -/
structure TokenInfo where
  mint : String
  metadata : Option TokenMetadata
  price : Option PriceData
deriving DecidableEq

def getTokenInfo (env : Services) (mint : String) : TokenInfo :=
  { mint := mint
    metadata := env.getTokenMetadata mint
    price := env.getTokenPrice mint }

/-! ### TransactionParser (src/src/monitors/transaction-parser.js) -/

/-- isAddressInvolved: the address appears among the account keys (the
fee-payer check is a redundant second look at position 0). -/
def isAddressInvolved (accounts : List String) (monitoredAddress : String) : Bool :=
  accounts.any (fun a => a == monitoredAddress)
    || accounts.head? == some monitoredAddress

/-- determineTransactionType: scan instructions in order, first match wins;
per instruction a DEX id is checked before the System and SPL Token ids. -/
def determineTransactionType : List Instruction → TxType
  | [] => .UNKNOWN
  | i :: rest =>
    if dexProgramIds.contains i.programId then .SWAP
    else if i.programId == systemProgramId then .TRANSFER
    else if i.programId == splTokenProgramId then .TRANSFER
    else determineTransactionType rest

/-- determineDEXPlatform: first instruction matching a known DEX id names
the platform. -/
def determineDEXPlatform : List Instruction → String
  | [] => "Unknown DEX"
  | i :: rest =>
    if i.programId == JUPITER_V6 || i.programId == JUPITER_V4 then "Jupiter Aggregator"
    else if i.programId == RAYDIUM_AMM || i.programId == RAYDIUM_CLMM then "Raydium"
    else if i.programId == ORCA_WHIRLPOOL then "Orca"
    else if i.programId == METEORA then "Meteora"
    else if i.programId == SERUM_V3 then "Serum"
    else if i.programId == OPENBOOK then "OpenBook"
    else determineDEXPlatform rest

/-- JavaScript Map.set: update an existing key in place, else append. -/
def mapSet (m : List (String × Nat)) (k : String) (v : Nat) : List (String × Nat) :=
  if m.any (fun p => p.1 == k) then
    m.map (fun p => if p.1 == k then (k, v) else p)
  else m ++ [(k, v)]

/-- JavaScript Map.get with a default. -/
def mapGetD (m : List (String × Nat)) (k : String) (d : Nat) : Nat :=
  match m.find? (fun p => p.1 == k) with
  | some p => p.2
  | none => d

/-- The preBalanceMap and postBalanceMap construction: keep only balances
owned by the monitored address, keyed by mint. -/
def balanceMap (bals : List TokenBalance) (monitoredAddress : String) :
    List (String × Nat) :=
  bals.foldl
    (fun m b => if b.owner == monitoredAddress then mapSet m b.mint b.amount else m)
    []

/-- Set union preserving first-insertion order (new Set of spread keys). -/
def keysUnion (xs ys : List String) : List String :=
  xs ++ ys.filter (fun y => !xs.contains y)

/-- One entry pushed by extractTokenChanges.  `preAmount` and `postAmount`
are the parseInt results (doubles), `change` their double difference. -/
structure TokenChange where
  mint : String
  change : Int
  preAmount : Int
  postAmount : Int
deriving DecidableEq

/-- extractTokenChanges: per-mint balance deltas for token accounts owned
by the monitored address; parseInt and the subtraction go through IEEE-754
double rounding. -/
def extractTokenChanges (preBalances postBalances : List TokenBalance)
    (accounts : List String) (monitoredAddress : String) : List TokenChange :=
  match accounts.findIdx? (fun a => a == monitoredAddress) with
  | none => []
  | some _ =>
    let preM := balanceMap preBalances monitoredAddress
    let postM := balanceMap postBalances monitoredAddress
    let allMints := keysUnion (preM.map Prod.fst) (postM.map Prod.fst)
    allMints.filterMap (fun mint =>
      let preAmount : Int := (jsRound (mapGetD preM mint 0) : Int)
      let postAmount : Int := (jsRound (mapGetD postM mint 0) : Int)
      let change := jsRoundInt (postAmount - preAmount)
      if change ≠ 0 then
        some { mint := mint, change := change,
               preAmount := preAmount, postAmount := postAmount }
      else none)

/-- calculateSOLChange: post minus pre lamport balance at the index of the
monitored address in the account-key list (0 when absent). -/
def calculateSOLChange (accounts : List String) (preBalances postBalances : List Int)
    (monitoredAddress : String) : Int :=
  match accounts.findIdx? (fun a => a == monitoredAddress) with
  | none => 0
  | some i =>
    let preBalance := (preBalances.get? i).getD 0
    let postBalance := (postBalances.get? i).getD 0
    jsRoundInt (postBalance - preBalance)

/-- formatTokenAmount: display value of a raw amount, divided by 10^9
(the hard-coded default decimal count); the numeric value shown, before
the fixed-width string fixup. -/
def formatTokenAmount (amount : Int) : ℚ :=
  (amount : ℚ) / 10 ^ 9

/-- calculateUSDValue: price lookup, then raw amount scaled by the mint
decimal count times the price; none when no price data. -/
def calculateUSDValue (env : Services) (amount : Int) (mint : String) : Option ℚ :=
  match env.getTokenPrice mint with
  | none => none
  | some priceData =>
    some ((amount : ℚ) / 10 ^ env.getTokenDecimals mint * priceData.price)

/-- JavaScript truthiness of the value field: a USD amount of 0 prints as
the string Unknown, modelled as none. -/
def truthyUSD (v : Option ℚ) : Option ℚ :=
  v.bind (fun x => if x = 0 then none else some x)

/-- One leg of a swap as reported in the event. -/
structure SwapLeg where
  mint : String
  symbol : String
  amount : Int
  usdValue : Option ℚ
deriving DecidableEq

/-- The transfer field of a transfer event: whether a plus sign is
prefixed and the displayed magnitude. -/
structure TransferField where
  plus : Bool
  displayAmount : ℚ
deriving DecidableEq

/-- The tokenInfo field attached to some events. -/
structure TokenInfoField where
  symbol : String
  price : ℚ
  marketCap : ℚ
deriving DecidableEq

/-- The classifier output object.  Fields absent from a given branch of
the source are none; parseTransaction stamps signature, blockTime, the
type string and the monitored address onto whatever branch produced. -/
structure ParsedData where
  platform : String
  typeField : String
  swap : Option (ℚ × ℚ) := none
  inputToken : Option SwapLeg := none
  outputToken : Option SwapLeg := none
  transfer : Option TransferField := none
  defi : Option String := none
  activity : Option String := none
  value : Option ℚ := none
  tokenInfo : Option TokenInfoField := none
  signature : Option String := none
  blockTime : Option Int := none
  monitoredAddress : String := ""
deriving DecidableEq

/-- parseSwapTransaction: platform from the first DEX instruction, token
deltas for the monitored address; needs at least two nonzero deltas and
at least one negative (input) and one positive (output) leg, taking the
first of each. -/
def parseSwapTransaction (env : Services) (tx : RawTransaction)
    (monitoredAddress : String) : Option ParsedData :=
  let platform := determineDEXPlatform tx.instructions
  let tokenChanges := extractTokenChanges tx.meta.preTokenBalances
    tx.meta.postTokenBalances tx.accountKeys monitoredAddress
  if tokenChanges.length < 2 then none
  else
    let tokenInfos := tokenChanges.map (fun c => (c, getTokenInfo env c.mint))
    match tokenInfos.find? (fun t => t.1.change < 0),
          tokenInfos.find? (fun t => 0 < t.1.change) with
    | some inputToken, some outputToken =>
      let inputSymbol :=
        ((inputToken.2.metadata.map TokenMetadata.symbol).getD "UNKNOWN")
      let outputSymbol :=
        ((outputToken.2.metadata.map TokenMetadata.symbol).getD "UNKNOWN")
      let inputAmount : Int := |inputToken.1.change|
      let outputAmount : Int := outputToken.1.change
      let inputUSD := calculateUSDValue env inputAmount inputToken.1.mint
      let outputUSD := calculateUSDValue env outputAmount outputToken.1.mint
      some { platform := platform
             typeField := ""
             swap := some (formatTokenAmount inputAmount, formatTokenAmount outputAmount)
             inputToken := some { mint := inputToken.1.mint, symbol := inputSymbol,
                                  amount := inputAmount, usdValue := inputUSD }
             outputToken := some { mint := outputToken.1.mint, symbol := outputSymbol,
                                   amount := outputAmount, usdValue := outputUSD }
             value := truthyUSD inputUSD
             tokenInfo := outputToken.2.price.map (fun pd =>
               { symbol := outputSymbol, price := pd.price, marketCap := pd.marketCap }) }
    | _, _ => none

/-- parseTransferTransaction: a nonzero native delta is reported first
with direction by sign; only a zero native delta falls back to the first
token delta of the monitored address. -/
def parseTransferTransaction (env : Services) (tx : RawTransaction)
    (monitoredAddress : String) : Option ParsedData :=
  let solChange := calculateSOLChange tx.accountKeys tx.meta.preBalances
    tx.meta.postBalances monitoredAddress
  if solChange ≠ 0 then
    let solUSD := calculateUSDValue env |solChange| solMint
    some { platform := "Solana Transfer"
           typeField := if 0 < solChange then "Received" else "Sent"
           transfer := some { plus := 0 < solChange,
                              displayAmount := formatTokenAmount |solChange| }
           value := truthyUSD solUSD }
  else
    let tokenChanges := extractTokenChanges tx.meta.preTokenBalances
      tx.meta.postTokenBalances tx.accountKeys monitoredAddress
    match tokenChanges.head? with
    | some tokenChange =>
      let tokenInfo := getTokenInfo env tokenChange.mint
      let tokenUSD := calculateUSDValue env |tokenChange.change| tokenChange.mint
      some { platform := "Token Transfer"
             typeField := if 0 < tokenChange.change then "Received" else "Sent"
             transfer := some { plus := 0 < tokenChange.change,
                                displayAmount := formatTokenAmount |tokenChange.change| }
             value := truthyUSD tokenUSD
             tokenInfo := tokenInfo.price.map (fun pd =>
               { symbol := (tokenInfo.metadata.map TokenMetadata.symbol).getD "UNKNOWN",
                 price := pd.price, marketCap := pd.marketCap }) }
    | none => none

/-- parseDeFiTransaction (dead branch: determineTransactionType never
returns DEFI, kept for faithfulness). -/
def parseDeFiTransaction (tx : RawTransaction) : Option ParsedData :=
  some { platform := determineDEXPlatform tx.instructions
         typeField := ""
         defi := some "DeFi Interaction" }

/-- parseUnknownTransaction: best-effort platform label; the loop does not
break, so the last matching instruction wins.  Always returns an event. -/
def parseUnknownTransaction (tx : RawTransaction) : Option ParsedData :=
  let platform := tx.instructions.foldl
    (fun p i =>
      if i.programId == systemProgramId then "System Program"
      else if i.programId == splTokenProgramId then "SPL Token Program"
      else if i.programId == ataProgramId then "Associated Token Account"
      else p)
    "Unknown"
  some { platform := platform
         typeField := "UNKNOWN"
         activity := some "Transaction Detected" }

/-- parseTransaction: envelope guard, relevance filter, type
determination, branch dispatch, then stamping of signature, blockTime,
type string and address onto the branch result. -/
def parseTransaction (env : Services) (transaction : Option RawTransaction)
    (monitoredAddress : String) : Option ParsedData :=
  match transaction with
  | none => none
  | some tx =>
    let signature := tx.signatures.head?
    let blockTime := tx.blockTime
    if !(isAddressInvolved tx.accountKeys monitoredAddress) then none
    else
      let transactionType := determineTransactionType tx.instructions
      let parsedData :=
        match transactionType with
        | .SWAP => parseSwapTransaction env tx monitoredAddress
        | .TRANSFER => parseTransferTransaction env tx monitoredAddress
        | .DEFI => parseDeFiTransaction tx
        | _ => parseUnknownTransaction tx
      parsedData.map (fun p =>
        { p with signature := signature, blockTime := blockTime,
                 typeField := transactionType.toStr,
                 monitoredAddress := monitoredAddress })

/-! ### SolanaMonitor (src/src/monitors/solana-monitor.js)

The Channel Coordinator.  The chain data source and the classifier
environment are bundled into one read-only environment; the mutable state
threaded through each operation is the Dedup Ledger content (the persisted
processed-signature list of the StorageService).  Each operation also
returns the emissions (logTransaction calls) and the trace of classifier
invocations it performed. -/

/-- The read-only surroundings of the monitor during a window of time. -/
structure MonitorEnv where
  services : Services
  getTransaction : String → Option RawTransaction
  getSignaturesForAddress : String → List String
deriving Inhabited

/-- One emitted activity record: the signature and address handed to
processTransaction and the classified event that was logged. -/
structure Emission where
  signature : String
  address : String
  event : ParsedData
deriving DecidableEq

/-- Result of a monitor operation: the Dedup Ledger after it, the
emissions it produced, and the signatures it invoked the classifier on. -/
structure StepResult where
  processed : List String
  emissions : List Emission
  classifierCalls : List String
deriving DecidableEq

/-- StorageService.addProcessedTransaction: upsert of the signature into
the persisted list (append when new, in-place update when present), then
trim the list to the most recent 1000 entries (the splice drops the
oldest entries from the front whenever the list exceeds 1000): the Dedup
Ledger is a sliding window, not a monotone set. -/
def addProcessedTransaction (processed : List String) (signature : String) :
    List String :=
  let transactions :=
    if processed.contains signature then processed else processed ++ [signature]
  if 1000 < transactions.length then
    transactions.drop (transactions.length - 1000)
  else transactions

/-- processTransaction: fetch the full transaction, classify it, and only
when classification is non-null emit and mark the signature processed.
There is no Dedup Ledger check in this function. -/
def processTransaction (env : MonitorEnv) (processed : List String)
    (signature address : String) : StepResult :=
  match env.getTransaction signature with
  | none => { processed := processed, emissions := [], classifierCalls := [] }
  | some tx =>
    match parseTransaction env.services (some tx) address with
    | some parsedData =>
      { processed := addProcessedTransaction processed signature
        emissions := [{ signature := signature, address := address, event := parsedData }]
        classifierCalls := [signature] }
    | none =>
      { processed := processed, emissions := [], classifierCalls := [signature] }

/-- The loop body of pollRecentTransactions over the fetched signature
list, in api order: skip signatures already in the Dedup Ledger, hand the
rest to processTransaction, threading the ledger through. -/
def pollList (env : MonitorEnv) (address : String) (processed : List String) :
    List String → StepResult
  | [] => { processed := processed, emissions := [], classifierCalls := [] }
  | s :: rest =>
    if processed.contains s then pollList env address processed rest
    else
      let r1 := processTransaction env processed s address
      let r2 := pollList env address r1.processed rest
      { processed := r2.processed
        emissions := r1.emissions ++ r2.emissions
        classifierCalls := r1.classifierCalls ++ r2.classifierCalls }

/-- pollRecentTransactions: fetch the up-to-10 most recent signatures for
the address (newest first) and run the loop over them. -/
def pollRecentTransactions (env : MonitorEnv) (processed : List String)
    (address : String) : StepResult :=
  pollList env address processed (env.getSignaturesForAddress address)

/-- Substring test on character lists (String.prototype.includes). -/
def listContainsSub (hay needle : List Char) : Bool :=
  match hay with
  | [] => needle.isEmpty
  | _ :: t => needle.isPrefixOf hay || listContainsSub t needle

/-- log.includes(address). -/
def strIncludes (s sub : String) : Bool :=
  listContainsSub s.data sub.data

/-- handleLogsNotification: the first monitored address contained in some
log line gets the signature processed directly, with no Dedup Ledger
check before the classifier runs. -/
def handleLogsNotification (env : MonitorEnv) (processed : List String)
    (monitored : List String) (signature : String) (logs : List String) :
    StepResult :=
  match monitored.find? (fun address => logs.any (fun l => strIncludes l address)) with
  | some address => processTransaction env processed signature address
  | none => { processed := processed, emissions := [], classifierCalls := [] }

/-- handleAccountNotification: when the owner reported by the notification
is monitored, immediately poll the recent transactions of that one
address.  Returns the list of addresses polled with the poll result. -/
def handleAccountNotification (env : MonitorEnv) (processed : List String)
    (monitored : List String) (owner : String) : List String × StepResult :=
  if monitored.contains owner then
    ([owner], pollRecentTransactions env processed owner)
  else
    ([], { processed := processed, emissions := [], classifierCalls := [] })

/-- A sequence of poll ticks on one address, each seeing a (possibly
different) recent-signature window, the Dedup Ledger threaded through;
returns the final ledger and each tick's classifier-call trace. -/
def runTicks (env : MonitorEnv) (address : String) :
    List String → List (List String) → List String × List (List String)
  | processed, [] => (processed, [])
  | processed, w :: ws =>
    let r := pollList env address processed w
    let rest := runTicks env address r.processed ws
    (rest.1, r.classifierCalls :: rest.2)

/-! ### Address registry (addAddress, with the external PublicKey check) -/

/-- The base58 alphabet used by Solana addresses. -/
def base58Alphabet : List Char :=
  "123456789ABCDEFGHJKLMNPQRSTUVWXYZabcdefghijkmnopqrstuvwxyz".data

def base58Index (c : Char) : Option Nat :=
  base58Alphabet.findIdx? (fun a => a == c)

/-- Modelled from the spec: the validation performed by the PublicKey
constructor of the external @solana/web3.js library (not part of this
repository), per the spec data model `address: string(base58, 32 bytes
decoded)`: the string must be base58 and decode to exactly 32 bytes. -/
def isValidSolanaAddress (s : String) : Bool :=
  let cs := s.data
  cs.all (fun c => (base58Index c).isSome) &&
    (let leading := (cs.takeWhile (fun c => c == '1')).length
     let rest := cs.dropWhile (fun c => c == '1')
     let v := rest.foldl (fun acc c => acc * 58 + (base58Index c).getD 0) 0
     let bytes := if v = 0 then 0 else v.log2 / 8 + 1
     leading + bytes == 32)

/-- One persisted entry of the monitored-address list. -/
structure AddrEntry where
  address : String
  label : String
deriving DecidableEq

/-- StorageService.addMonitoredAddress: upsert by address. -/
def addMonitoredAddress (addrs : List AddrEntry) (address label : String) :
    List AddrEntry :=
  if addrs.any (fun a => a.address == address) then
    addrs.map (fun a => if a.address == address then { address := address, label := label } else a)
  else addrs ++ [{ address := address, label := label }]

/-- The registry state touched by addAddress: the in-memory monitored set
and the persisted address list. -/
structure RegistryState where
  monitoredAddresses : List String
  storedAddresses : List AddrEntry
deriving DecidableEq

/-- addAddress: validate the address first (the PublicKey constructor
throws on a malformed address, re-thrown by the catch block before any
mutation); on success persist, then add to the in-memory set.  The second
component is the error surfaced to the caller, none on success. -/
def addAddress (st : RegistryState) (address label : String) :
    RegistryState × Option String :=
  if isValidSolanaAddress address then
    let st1 := { st with storedAddresses := addMonitoredAddress st.storedAddresses address label }
    let st2 := { st1 with monitoredAddresses :=
      if st1.monitoredAddresses.contains address then st1.monitoredAddresses
      else st1.monitoredAddresses ++ [address] }
    (st2, none)
  else
    (st, some "Invalid public key input")

/-! ### Helper lemmas -/

theorem contains_iff_mem {l : List String} {a : String} :
    l.contains a = true ↔ a ∈ l := by
  simp [List.contains, List.elem_iff]

theorem mem_contains_append_singleton {l : List String} {s x : String}
    (h : x ≠ s) : (l ++ [s]).contains x = l.contains x := by
  cases hc : l.contains x with
  | true =>
    have hm : x ∈ l := contains_iff_mem.mp hc
    exact contains_iff_mem.mpr (List.mem_append.mpr (Or.inl hm))
  | false =>
    cases hc2 : (l ++ [s]).contains x with
    | false => rfl
    | true =>
      have hm : x ∈ l ++ [s] := contains_iff_mem.mp hc2
      rcases List.mem_append.mp hm with hl | hr
      · rw [← hc, contains_iff_mem.mpr hl]
      · simp at hr
        exact absurd hr h

/-- Unfolding of the mark on an already-present signature: only the trim
applies. -/
theorem addProcessedTransaction_pos {processed : List String} {signature : String}
    (hca : processed.contains signature = true) :
    addProcessedTransaction processed signature =
      (if 1000 < processed.length then processed.drop (processed.length - 1000)
       else processed) := by
  unfold addProcessedTransaction
  rw [if_pos hca]

/-- Unfolding of the mark on a novel signature: append, then trim. -/
theorem addProcessedTransaction_neg {processed : List String} {signature : String}
    (hca : ¬processed.contains signature = true) :
    addProcessedTransaction processed signature =
      (if 1000 < (processed ++ [signature]).length then
        (processed ++ [signature]).drop ((processed ++ [signature]).length - 1000)
       else processed ++ [signature]) := by
  unfold addProcessedTransaction
  rw [if_neg hca]

/-- No entry of the Dedup Ledger after a mark is new except the marked
signature itself (the trim only removes entries). -/
theorem mem_addProcessedTransaction {processed : List String} {signature x : String}
    (h : x ∈ addProcessedTransaction processed signature) :
    x ∈ processed ∨ x = signature := by
  by_cases hca : processed.contains signature = true
  · rw [addProcessedTransaction_pos hca] at h
    left
    split at h
    · exact List.mem_of_mem_drop h
    · exact h
  · rw [addProcessedTransaction_neg hca] at h
    have hup : x ∈ processed ++ [signature] := by
      split at h
      · exact List.mem_of_mem_drop h
      · exact h
    rcases List.mem_append.mp hup with h1 | h1
    · exact Or.inl h1
    · simp at h1
      exact Or.inr h1

/-- Below 1000 ledger entries the trim never fires and marking is a plain
upsert. -/
theorem addProcessedTransaction_of_lt {processed : List String} {signature : String}
    (h : processed.length < 1000) :
    addProcessedTransaction processed signature =
      (if processed.contains signature then processed
       else processed ++ [signature]) := by
  by_cases hca : processed.contains signature = true
  · rw [addProcessedTransaction_pos hca, if_pos hca]
    rw [if_neg (by omega : ¬1000 < processed.length)]
  · rw [addProcessedTransaction_neg hca, if_neg hca]
    rw [if_neg (by simp; omega : ¬1000 < (processed ++ [signature]).length)]

theorem length_addProcessedTransaction_le (processed : List String) (signature : String) :
    (addProcessedTransaction processed signature).length ≤ processed.length + 1 := by
  by_cases hca : processed.contains signature = true
  · rw [addProcessedTransaction_pos hca]
    split
    · rw [List.length_drop]
      omega
    · omega
  · rw [addProcessedTransaction_neg hca]
    split
    · rw [List.length_drop]
      simp
    · simp

/-- The processed list of processTransaction is the input list or the
input list after a mark of the signature. -/
theorem processTransaction_processed_cases (env : MonitorEnv) (processed : List String)
    (signature address : String) :
    (processTransaction env processed signature address).processed = processed ∨
    (processTransaction env processed signature address).processed =
      addProcessedTransaction processed signature := by
  unfold processTransaction
  split
  · exact Or.inl rfl
  · split
    · exact Or.inr rfl
    · exact Or.inl rfl

/-- Below 1000 ledger entries processTransaction leaves the ledger
unchanged or appends the signature. -/
theorem processTransaction_processed_cases_of_lt (env : MonitorEnv)
    (processed : List String) (signature address : String)
    (h : processed.length < 1000) :
    (processTransaction env processed signature address).processed = processed ∨
    (processTransaction env processed signature address).processed =
      processed ++ [signature] := by
  rcases processTransaction_processed_cases env processed signature address with hc | hc
  · exact Or.inl hc
  · rw [hc, addProcessedTransaction_of_lt h]
    split
    · exact Or.inl rfl
    · exact Or.inr rfl

theorem mem_processTransaction_processed_of_lt {env : MonitorEnv} {processed : List String}
    {signature address x : String} (hlt : processed.length < 1000) (h : x ∈ processed) :
    x ∈ (processTransaction env processed signature address).processed := by
  rcases processTransaction_processed_cases_of_lt env processed signature address hlt
    with hc | hc
  · rw [hc]; exact h
  · rw [hc]; exact List.mem_append.mpr (Or.inl h)

theorem processTransaction_length_le (env : MonitorEnv) (processed : List String)
    (signature address : String) :
    (processTransaction env processed signature address).processed.length ≤
      processed.length + 1 := by
  rcases processTransaction_processed_cases env processed signature address with hc | hc
  · rw [hc]; omega
  · rw [hc]; exact length_addProcessedTransaction_le processed signature

theorem processTransaction_calls_eq (env : MonitorEnv) (processed : List String)
    (signature address : String) {c : String}
    (h : c ∈ (processTransaction env processed signature address).classifierCalls) :
    c = signature := by
  unfold processTransaction at h
  split at h
  · simp at h
  · split at h
    · simp at h
      exact h
    · simp at h
      exact h

theorem processTransaction_emissions_sig (env : MonitorEnv) (processed : List String)
    (signature address : String) {e : Emission}
    (h : e ∈ (processTransaction env processed signature address).emissions) :
    e.signature = signature := by
  unfold processTransaction at h
  split at h
  · simp at h
  · split at h
    · simp at h
      rw [h]
    · simp at h

/-! ### Claim C4 -/

/-- An instruction whose program id is a known DEX program. -/
def isDexInstruction (i : Instruction) : Bool :=
  dexProgramIds.contains i.programId

/-- An instruction whose program id is the System or the SPL Token
program. -/
def isTransferInstruction (i : Instruction) : Bool :=
  i.programId == systemProgramId || i.programId == splTokenProgramId

def instructionsBoth : List Instruction :=
  [{ programId := systemProgramId }, { programId := JUPITER_V6 }]

/-- Claim C4 counterexample: a transaction whose instruction list contains
both a transfer instruction and a DEX instruction, with the transfer
instruction first, is typed TRANSFER, not SWAP, so DEX matching does not
win over instruction order. -/
theorem c4_counterexample :
    determineTransactionType instructionsBoth = TxType.TRANSFER ∧
    determineTransactionType instructionsBoth ≠ TxType.SWAP ∧
    instructionsBoth.any isDexInstruction = true ∧
    instructionsBoth.any isTransferInstruction = true := by
  decide

/-- Claim C4 (amended): type determination scans instructions in order and
the first instruction matching any known category decides the type: SWAP
when it is a DEX instruction, TRANSFER when it is a System or SPL Token
instruction, and UNKNOWN when no instruction matches.  A transaction with
both a DEX and a transfer instruction is therefore SWAP exactly when the
DEX instruction comes first among the matching ones. -/
theorem c4_type_first_match (instructions : List Instruction) :
    determineTransactionType instructions =
      match instructions.find? (fun i => isDexInstruction i || isTransferInstruction i) with
      | some i => if isDexInstruction i then TxType.SWAP else TxType.TRANSFER
      | none => TxType.UNKNOWN := by
  induction instructions with
  | nil => rfl
  | cons i rest ih =>
    by_cases h1 : i.programId ∈ dexProgramIds
    · simp [determineTransactionType, List.find?, isDexInstruction, isTransferInstruction, h1]
    · by_cases h2 : i.programId = systemProgramId
      · simp [determineTransactionType, List.find?, isDexInstruction, isTransferInstruction,
          h1, h2]
      · by_cases h3 : i.programId = splTokenProgramId
        · simp [determineTransactionType, List.find?, isDexInstruction, isTransferInstruction,
            h1, h2, h3]
        · have hb2 : (i.programId == systemProgramId) = false := by simp [h2]
          have hb3 : (i.programId == splTokenProgramId) = false := by simp [h3]
          simp [determineTransactionType, List.find?, isDexInstruction, isTransferInstruction,
            h1, hb2, hb3, ih]

/-! ### Concrete fixtures used by counterexamples and witnesses -/

/-- A services environment with no price or metadata data. -/
def envNoPrices : Services :=
  { getTokenPrice := fun _ => none
    getTokenMetadata := fun _ => none
    getTokenDecimals := fun _ => 9 }

/-- A simple transfer transaction: the monitored wallet gains 5 SOL worth
of lamports and also has a nonzero token delta. -/
def txTransferBoth : RawTransaction :=
  { signatures := ["sigX"]
    accountKeys := ["walletA", "walletB"]
    instructions := [{ programId := systemProgramId }]
    blockTime := some 100
    meta :=
      { preBalances := [0, 5000000000]
        postBalances := [5000000000, 0]
        preTokenBalances := [{ owner := "walletA", mint := "mintA", amount := 0 }]
        postTokenBalances := [{ owner := "walletA", mint := "mintA", amount := 7 }] } }

/-- A transfer transaction that classifies to null: zero native delta and
no token balance entries. -/
def txNullClass : RawTransaction :=
  { signatures := ["sigN"]
    accountKeys := ["walletA"]
    instructions := [{ programId := systemProgramId }]
    blockTime := some 50
    meta :=
      { preBalances := [3]
        postBalances := [3]
        preTokenBalances := []
        postTokenBalances := [] } }

/-! ### Claim C6 -/

/-- Claim C6: an account notification whose owner is a monitored address
makes the Coordinator immediately poll the recent transactions of exactly
that one address. -/
theorem c6_account_notification_polls_owner (env : MonitorEnv) (processed : List String)
    (monitored : List String) (owner : String) (h : monitored.contains owner = true) :
    handleAccountNotification env processed monitored owner =
      ([owner], pollRecentTransactions env processed owner) := by
  unfold handleAccountNotification
  rw [if_pos h]

def envEmpty : MonitorEnv :=
  { services := envNoPrices
    getTransaction := fun _ => none
    getSignaturesForAddress := fun _ => [] }

theorem c6_account_notification_polls_owner_witness :
    handleAccountNotification envEmpty [] ["walletA", "walletB"] "walletB" =
      (["walletB"], pollRecentTransactions envEmpty [] "walletB") :=
  c6_account_notification_polls_owner envEmpty [] ["walletA", "walletB"] "walletB"
    (by decide)

/-! ### Claim C9 -/

/-- Claim C9: a malformed (non-base58-decodable, or wrong-length) address
makes addAddress surface a validation error synchronously and leaves both
the in-memory monitored set and the persisted address list unchanged. -/
theorem c9_add_address_invalid (st : RegistryState) (address label : String)
    (h : isValidSolanaAddress address = false) :
    addAddress st address label = (st, some "Invalid public key input") := by
  unfold addAddress
  rw [if_neg]
  rw [h]
  exact Bool.false_ne_true

def registryW : RegistryState :=
  { monitoredAddresses := ["walletA"]
    storedAddresses := [{ address := "walletA", label := "w" }] }

theorem c9_add_address_invalid_witness :
    addAddress registryW "not-a-valid-address" "label" =
      (registryW, some "Invalid public key input") :=
  c9_add_address_invalid registryW "not-a-valid-address" "label" (by decide)

/-! ### Claim C3 -/

/-- A DEX transaction whose monitored-address token deltas have two
negative legs and one positive leg. -/
def txSwapTwoNeg : RawTransaction :=
  { signatures := ["sigS"]
    accountKeys := ["walletA"]
    instructions := [{ programId := JUPITER_V6 }]
    blockTime := some 200
    meta :=
      { preBalances := [0]
        postBalances := [0]
        preTokenBalances :=
          [{ owner := "walletA", mint := "mintA", amount := 100 },
           { owner := "walletA", mint := "mintB", amount := 50 },
           { owner := "walletA", mint := "mintC", amount := 0 }]
        postTokenBalances :=
          [{ owner := "walletA", mint := "mintA", amount := 0 },
           { owner := "walletA", mint := "mintB", amount := 0 },
           { owner := "walletA", mint := "mintC", amount := 30 }] } }

/-- Claim C3 counterexample: a SWAP-typed transaction whose deltas have
two negative legs (not exactly one) still classifies non-null: the code
only requires at least one negative and one positive leg and takes the
first of each, so same-sign multiplicity is not rejected. -/
theorem c3_counterexample :
    determineTransactionType txSwapTwoNeg.instructions = TxType.SWAP ∧
    (extractTokenChanges txSwapTwoNeg.meta.preTokenBalances
        txSwapTwoNeg.meta.postTokenBalances txSwapTwoNeg.accountKeys "walletA").countP
      (fun c => c.change < 0) = 2 ∧
    (extractTokenChanges txSwapTwoNeg.meta.preTokenBalances
        txSwapTwoNeg.meta.postTokenBalances txSwapTwoNeg.accountKeys "walletA").countP
      (fun c => 0 < c.change) = 1 ∧
    (parseTransaction envNoPrices (some txSwapTwoNeg) "walletA").isSome = true := by
  decide

/-- find? over the tokenInfos pairing, negative-leg predicate. -/
theorem find?_chg_neg (env : Services) (changes : List TokenChange) :
    (changes.map (fun c => (c, getTokenInfo env c.mint))).find?
        (fun t => decide (t.1.change < 0)) =
      (changes.find? (fun c => decide (c.change < 0))).map
        (fun c => (c, getTokenInfo env c.mint)) := by
  induction changes with
  | nil => rfl
  | cons c cs ih =>
    simp only [List.map_cons, List.find?_cons]
    cases h : decide (c.change < 0) with
    | true => simp [h]
    | false => simpa [h] using ih

/-- find? over the tokenInfos pairing, positive-leg predicate. -/
theorem find?_chg_pos (env : Services) (changes : List TokenChange) :
    (changes.map (fun c => (c, getTokenInfo env c.mint))).find?
        (fun t => decide (0 < t.1.change)) =
      (changes.find? (fun c => decide (0 < c.change))).map
        (fun c => (c, getTokenInfo env c.mint)) := by
  induction changes with
  | nil => rfl
  | cons c cs ih =>
    simp only [List.map_cons, List.find?_cons]
    cases h : decide (0 < c.change) with
    | true => simp [h]
    | false => simpa [h] using ih

/-- Claim C3 (amended): a SWAP-typed transaction classifies to null
exactly when the monitored-address deltas have fewer than two nonzero
entries, or no negative leg, or no positive leg; when both legs exist the
first negative and the first positive delta are used, with no rejection
of additional same-sign legs. -/
theorem c3_swap_null_conditions (env : Services) (tx : RawTransaction)
    (monitoredAddress : String) :
    parseSwapTransaction env tx monitoredAddress = none ↔
      ((extractTokenChanges tx.meta.preTokenBalances tx.meta.postTokenBalances
          tx.accountKeys monitoredAddress).length < 2 ∨
       (extractTokenChanges tx.meta.preTokenBalances tx.meta.postTokenBalances
          tx.accountKeys monitoredAddress).find? (fun c => c.change < 0) = none ∨
       (extractTokenChanges tx.meta.preTokenBalances tx.meta.postTokenBalances
          tx.accountKeys monitoredAddress).find? (fun c => 0 < c.change) = none) := by
  unfold parseSwapTransaction
  by_cases hlen : (extractTokenChanges tx.meta.preTokenBalances tx.meta.postTokenBalances
      tx.accountKeys monitoredAddress).length < 2
  · simp [hlen]
  · rw [if_neg hlen]
    simp only [find?_chg_neg, find?_chg_pos]
    cases hneg : (extractTokenChanges tx.meta.preTokenBalances tx.meta.postTokenBalances
        tx.accountKeys monitoredAddress).find?
        (fun c => decide (c.change < 0)) with
    | none => simp [hneg, hlen]
    | some cneg =>
      cases hpos : (extractTokenChanges tx.meta.preTokenBalances tx.meta.postTokenBalances
          tx.accountKeys monitoredAddress).find?
          (fun c => decide (0 < c.change)) with
      | none => simp [hneg, hpos, hlen]
      | some cpos => simp [hneg, hpos, hlen]

/-! ### Claim C5 -/

/-- Claim C5: for a TRANSFER-typed transaction, a nonzero native delta
(post minus pre at the index of the monitored address) is what the event
reports, with direction Received for a positive delta and Sent for a
negative one, and no token information attached; a token-account delta is
reported only when the native delta is exactly zero, and then the first
nonzero token delta of the address is used. -/
theorem c5_transfer_native_priority (env : Services) (tx : RawTransaction)
    (monitoredAddress : String) (i : Nat) (p q : Int)
    (hidx : tx.accountKeys.findIdx? (fun a => a == monitoredAddress) = some i)
    (hpre : tx.meta.preBalances.get? i = some p)
    (hpost : tx.meta.postBalances.get? i = some q)
    (hsmall : (q - p).natAbs < 2 ^ 53) :
    (q - p ≠ 0 →
      ∃ ev, parseTransferTransaction env tx monitoredAddress = some ev ∧
        ev.platform = "Solana Transfer" ∧
        ev.typeField = (if 0 < q - p then "Received" else "Sent") ∧
        ev.transfer = some { plus := 0 < q - p, displayAmount := formatTokenAmount |q - p| } ∧
        ev.tokenInfo = none) ∧
    (q - p = 0 →
      ∀ ev, parseTransferTransaction env tx monitoredAddress = some ev →
        ev.platform = "Token Transfer" ∧
        ∃ tc, (extractTokenChanges tx.meta.preTokenBalances tx.meta.postTokenBalances
            tx.accountKeys monitoredAddress).head? = some tc ∧
          ev.typeField = (if 0 < tc.change then "Received" else "Sent") ∧
          ev.transfer = some { plus := 0 < tc.change,
                               displayAmount := formatTokenAmount |tc.change| }) := by
  have hsol : calculateSOLChange tx.accountKeys tx.meta.preBalances
      tx.meta.postBalances monitoredAddress = q - p := by
    unfold calculateSOLChange
    rw [hidx]
    simp only [hpre, hpost, Option.getD_some]
    exact jsRoundInt_small hsmall
  constructor
  · intro hne
    unfold parseTransferTransaction
    simp only [hsol]
    rw [if_pos hne]
    exact ⟨_, rfl, rfl, rfl, rfl, rfl⟩
  · intro h0 ev hev
    unfold parseTransferTransaction at hev
    simp only [hsol, h0] at hev
    rw [if_neg (by simp)] at hev
    cases hhead : (extractTokenChanges tx.meta.preTokenBalances tx.meta.postTokenBalances
        tx.accountKeys monitoredAddress).head? with
    | none =>
      rw [hhead] at hev
      exact absurd hev (by simp)
    | some tc =>
      rw [hhead] at hev
      simp only [Option.some.injEq] at hev
      subst hev
      exact ⟨rfl, tc, rfl, rfl, rfl⟩

theorem c5_transfer_native_priority_witness :
    ∃ ev, parseTransferTransaction envNoPrices txTransferBoth "walletA" = some ev ∧
      ev.platform = "Solana Transfer" ∧
      ev.typeField = "Received" ∧
      ev.transfer = some { plus := true, displayAmount := formatTokenAmount 5000000000 } ∧
      ev.tokenInfo = none := by
  have h := (c5_transfer_native_priority envNoPrices txTransferBoth "walletA" 0 0 5000000000
    (by decide) rfl rfl (by decide)).1 (by decide)
  obtain ⟨ev, hp, h1, h2, h3, h4⟩ := h
  refine ⟨ev, hp, h1, ?_, ?_, h4⟩
  · rw [h2]
    norm_num
  · rw [h3]
    norm_num

/-! ### Claim C7 -/

/-- The mint and raw amount of a swap leg (the parts not derived from the
price or metadata services). -/
def legView (l : SwapLeg) : String × Int :=
  (l.mint, l.amount)

/-- The event fields that are functions of the transaction and address
alone: everything except the USD value, the token symbols and the price
information. -/
def coreView (pd : ParsedData) :
    String × String × Option (ℚ × ℚ) × Option TransferField × Option String ×
    Option String × Option (String × Int) × Option (String × Int) ×
    Option String × Option Int × String :=
  (pd.platform, pd.typeField, pd.swap, pd.transfer, pd.defi, pd.activity,
   pd.inputToken.map legView, pd.outputToken.map legView,
   pd.signature, pd.blockTime, pd.monitoredAddress)

theorem map_stamp_coreView {o1 o2 : Option ParsedData}
    (sig : Option String) (bt : Option Int) (t : TxType) (addr : String)
    (h : o1.map coreView = o2.map coreView) :
    (o1.map (fun p =>
      { p with signature := sig, blockTime := bt,
               typeField := t.toStr, monitoredAddress := addr })).map coreView =
    (o2.map (fun p =>
      { p with signature := sig, blockTime := bt,
               typeField := t.toStr, monitoredAddress := addr })).map coreView := by
  cases o1 <;> cases o2 <;> simp_all [coreView]

theorem parseSwap_coreView (env1 env2 : Services) (tx : RawTransaction)
    (monitoredAddress : String) :
    (parseSwapTransaction env1 tx monitoredAddress).map coreView =
    (parseSwapTransaction env2 tx monitoredAddress).map coreView := by
  unfold parseSwapTransaction
  by_cases hlen : (extractTokenChanges tx.meta.preTokenBalances tx.meta.postTokenBalances
      tx.accountKeys monitoredAddress).length < 2
  · simp [hlen]
  · rw [if_neg hlen, if_neg hlen]
    simp only [find?_chg_neg, find?_chg_pos]
    cases hneg : (extractTokenChanges tx.meta.preTokenBalances tx.meta.postTokenBalances
        tx.accountKeys monitoredAddress).find? (fun c => decide (c.change < 0)) with
    | none => simp
    | some cneg =>
      cases hpos : (extractTokenChanges tx.meta.preTokenBalances tx.meta.postTokenBalances
          tx.accountKeys monitoredAddress).find? (fun c => decide (0 < c.change)) with
      | none => simp
      | some cpos => simp [coreView, legView]

theorem parseTransfer_coreView (env1 env2 : Services) (tx : RawTransaction)
    (monitoredAddress : String) :
    (parseTransferTransaction env1 tx monitoredAddress).map coreView =
    (parseTransferTransaction env2 tx monitoredAddress).map coreView := by
  unfold parseTransferTransaction
  by_cases hz : calculateSOLChange tx.accountKeys tx.meta.preBalances
      tx.meta.postBalances monitoredAddress = 0
  · simp only [hz]
    rw [if_neg (by simp)]
    cases hhead : (extractTokenChanges tx.meta.preTokenBalances tx.meta.postTokenBalances
        tx.accountKeys monitoredAddress).head? with
    | none => simp [hhead]
    | some tc => simp [hhead, coreView, legView]
  · simp [hz, coreView]

/-- Claim C7 (amended): the classifier is deterministic given the
responses of the price and metadata collaborators, and every event field
other than those derived from the collaborators (USD values, token
symbols, price info) is a function of the transaction and address alone:
across any two collaborator states, classification agrees on nullness and
on all core fields. -/
theorem c7_classifier_core_deterministic (env1 env2 : Services)
    (transaction : Option RawTransaction) (monitoredAddress : String) :
    (parseTransaction env1 transaction monitoredAddress).map coreView =
    (parseTransaction env2 transaction monitoredAddress).map coreView := by
  cases transaction with
  | none => rfl
  | some tx =>
    unfold parseTransaction
    cases hinv : isAddressInvolved tx.accountKeys monitoredAddress with
    | false => simp [hinv]
    | true =>
      simp only [hinv, Bool.not_true, Bool.false_eq_true, if_false, Option.map_map]
      cases ht : determineTransactionType tx.instructions with
      | SWAP =>
        have h := parseSwap_coreView env1 env2 tx monitoredAddress
        simpa [Option.map_map] using
          map_stamp_coreView tx.signatures.head? tx.blockTime .SWAP monitoredAddress h
      | TRANSFER =>
        have h := parseTransfer_coreView env1 env2 tx monitoredAddress
        simpa [Option.map_map] using
          map_stamp_coreView tx.signatures.head? tx.blockTime .TRANSFER monitoredAddress h
      | NFT => rfl
      | DEFI => rfl
      | UNKNOWN => rfl

def envPrice1 : Services :=
  { getTokenPrice := fun _ => some { price := 1, marketCap := 0 }
    getTokenMetadata := fun _ => none
    getTokenDecimals := fun _ => 9 }

def envPrice2 : Services :=
  { getTokenPrice := fun _ => some { price := 2, marketCap := 0 }
    getTokenMetadata := fun _ => none
    getTokenDecimals := fun _ => 9 }

/-- A token-only transfer: zero native delta, one nonzero token delta. -/
def txTokenOnly : RawTransaction :=
  { signatures := ["sigT"]
    accountKeys := ["walletA"]
    instructions := [{ programId := systemProgramId }]
    blockTime := some 300
    meta :=
      { preBalances := [0]
        postBalances := [0]
        preTokenBalances := [{ owner := "walletA", mint := "mintA", amount := 0 }]
        postTokenBalances := [{ owner := "walletA", mint := "mintA", amount := 7 }] } }

/-- Claim C7 counterexample: the same transaction and address classified
under two different price-service states yields two non-null events that
are not identical (the attached price information differs, as does the
USD value), so the classifier output is not a function of the transaction
and address alone and two invocations need not agree on every field. -/
theorem c7_counterexample :
    (parseTransaction envPrice1 (some txTokenOnly) "walletA").map ParsedData.tokenInfo ≠
      (parseTransaction envPrice2 (some txTokenOnly) "walletA").map ParsedData.tokenInfo ∧
    (parseTransaction envPrice1 (some txTokenOnly) "walletA").isSome = true ∧
    (parseTransaction envPrice2 (some txTokenOnly) "walletA").isSome = true := by
  decide

/-! ### Claim C8 -/

theorem mem_mapSet {m : List (String × Nat)} {k : String} {v : Nat} {x : String × Nat}
    (h : x ∈ mapSet m k v) : x.2 = v ∨ x ∈ m := by
  unfold mapSet at h
  split at h
  · rcases List.mem_map.mp h with ⟨y, hy, hxy⟩
    by_cases hk : (y.1 == k) = true
    · rw [if_pos hk] at hxy
      rw [← hxy]
      exact Or.inl rfl
    · rw [if_neg hk] at hxy
      rw [← hxy]
      exact Or.inr hy
  · rcases List.mem_append.mp h with hm | hs
    · exact Or.inr hm
    · simp at hs
      rw [hs]
      exact Or.inl rfl

theorem foldl_balance_values_lt (monitoredAddress : String) (bound : Nat) :
    ∀ (bals : List TokenBalance) (m : List (String × Nat)),
      (∀ b ∈ bals, b.amount < bound) → (∀ x ∈ m, x.2 < bound) →
      ∀ x ∈ bals.foldl
          (fun m b => if b.owner == monitoredAddress then mapSet m b.mint b.amount else m) m,
        x.2 < bound := by
  intro bals
  induction bals with
  | nil =>
    intro m _ hm x hx
    exact hm x hx
  | cons b bs ih =>
    intro m hb hm x hx
    simp only [List.foldl_cons] at hx
    refine ih _ (fun b' hb' => hb b' (List.mem_cons_of_mem b hb')) ?_ x hx
    intro y hy
    by_cases hc : (b.owner == monitoredAddress) = true
    · rw [if_pos hc] at hy
      rcases mem_mapSet hy with h1 | h2
      · rw [h1]
        exact hb b (List.mem_cons_self b bs)
      · exact hm y h2
    · rw [if_neg hc] at hy
      exact hm y hy

theorem balanceMap_values_lt {bals : List TokenBalance} {monitoredAddress : String}
    {bound : Nat} (h : ∀ b ∈ bals, b.amount < bound) :
    ∀ x ∈ balanceMap bals monitoredAddress, x.2 < bound :=
  foldl_balance_values_lt monitoredAddress bound bals [] h (by simp)

theorem mapGetD_lt {m : List (String × Nat)} {k : String} {bound : Nat}
    (hm : ∀ x ∈ m, x.2 < bound) (hb : 0 < bound) : mapGetD m k 0 < bound := by
  unfold mapGetD
  cases hf : m.find? (fun p => p.1 == k) with
  | none => exact hb
  | some x => exact hm x (List.mem_of_find?_eq_some hf)

/-- Claim C8 (amended): for raw amounts below 2^53 (where an IEEE-754
double holds integers exactly) every reported token change is the exact
integer difference of the raw unscaled pre and post amounts of its mint,
and only nonzero differences are reported; the 10^decimals scaling is
applied by formatTokenAmount at display time only, never before the
delta.  Above 2^53 the parseInt doubles lose precision, so exactness
holds only under this bound. -/
theorem c8_exact_small_amounts (preBalances postBalances : List TokenBalance)
    (accounts : List String) (monitoredAddress : String)
    (hpre : ∀ b ∈ preBalances, b.amount < 2 ^ 53)
    (hpost : ∀ b ∈ postBalances, b.amount < 2 ^ 53) :
    ∀ c ∈ extractTokenChanges preBalances postBalances accounts monitoredAddress,
      c.preAmount = (mapGetD (balanceMap preBalances monitoredAddress) c.mint 0 : Int) ∧
      c.postAmount = (mapGetD (balanceMap postBalances monitoredAddress) c.mint 0 : Int) ∧
      c.change = c.postAmount - c.preAmount ∧
      c.change ≠ 0 := by
  intro c hc
  unfold extractTokenChanges at hc
  cases hidx : accounts.findIdx? (fun a => a == monitoredAddress) with
  | none =>
    rw [hidx] at hc
    simp at hc
  | some j =>
    rw [hidx] at hc
    simp only [List.mem_filterMap] at hc
    obtain ⟨mint, _, heq⟩ := hc
    have hpN : jsRound (mapGetD (balanceMap preBalances monitoredAddress) mint 0) =
        mapGetD (balanceMap preBalances monitoredAddress) mint 0 :=
      jsRound_small (mapGetD_lt (balanceMap_values_lt hpre) (by positivity))
    have hqN : jsRound (mapGetD (balanceMap postBalances monitoredAddress) mint 0) =
        mapGetD (balanceMap postBalances monitoredAddress) mint 0 :=
      jsRound_small (mapGetD_lt (balanceMap_values_lt hpost) (by positivity))
    have hpb : mapGetD (balanceMap preBalances monitoredAddress) mint 0 < 2 ^ 53 :=
      mapGetD_lt (balanceMap_values_lt hpre) (by positivity)
    have hqb : mapGetD (balanceMap postBalances monitoredAddress) mint 0 < 2 ^ 53 :=
      mapGetD_lt (balanceMap_values_lt hpost) (by positivity)
    simp only [hpN, hqN] at heq
    have hround : jsRoundInt ((mapGetD (balanceMap postBalances monitoredAddress) mint 0 : Int) -
        (mapGetD (balanceMap preBalances monitoredAddress) mint 0 : Int)) =
        (mapGetD (balanceMap postBalances monitoredAddress) mint 0 : Int) -
        (mapGetD (balanceMap preBalances monitoredAddress) mint 0 : Int) := by
      apply jsRoundInt_small
      omega
    rw [hround] at heq
    split at heq
    · rename_i hne
      simp only [Option.some.injEq] at heq
      rw [← heq]
      exact ⟨rfl, rfl, rfl, hne⟩
    · exact absurd heq (by simp)

def preBig : List TokenBalance :=
  [{ owner := "walletA", mint := "mintBig", amount := 2 ^ 53 + 1 }]

def postBig : List TokenBalance :=
  [{ owner := "walletA", mint := "mintBig", amount := 2 ^ 53 }]

/-- Claim C8 counterexample: with a raw pre amount of 2^53+1 and post
amount of 2^53 the true raw delta is -1 (nonzero), but parseInt rounds
2^53+1 to the double 2^53, the computed delta is 0, and the change is
dropped entirely: the computation is not exact integer subtraction and
does lose precision on representable u64 raw amounts. -/
theorem c8_counterexample :
    extractTokenChanges preBig postBig ["walletA"] "walletA" = [] ∧
    ((2 ^ 53 : Int) - (2 ^ 53 + 1)) ≠ 0 := by
  decide

def preSmall : List TokenBalance :=
  [{ owner := "walletA", mint := "mintA", amount := 100 }]

def postSmall : List TokenBalance :=
  [{ owner := "walletA", mint := "mintA", amount := 40 }]

theorem c8_exact_small_amounts_witness :
    (({ mint := "mintA", change := -60, preAmount := 100, postAmount := 40 } : TokenChange) ∈
      extractTokenChanges preSmall postSmall ["walletA"] "walletA") ∧
    ((100 : Int) = (mapGetD (balanceMap preSmall "walletA") "mintA" 0 : Int) ∧
     (40 : Int) = (mapGetD (balanceMap postSmall "walletA") "mintA" 0 : Int) ∧
     (-60 : Int) = 40 - 100 ∧
     (-60 : Int) ≠ 0) := by
  have h := c8_exact_small_amounts preSmall postSmall ["walletA"] "walletA"
    (by decide) (by decide)
  exact ⟨by decide, h { mint := "mintA", change := -60, preAmount := 100, postAmount := 40 }
    (by decide)⟩

/-! ### Claim C1 -/

theorem pollList_length_le (env : MonitorEnv) (address : String) :
    ∀ (sigs processed : List String),
      (pollList env address processed sigs).processed.length ≤
        processed.length + sigs.length := by
  intro sigs
  induction sigs with
  | nil =>
    intro processed
    simp [pollList]
  | cons s rest ih =>
    intro processed
    by_cases hc : processed.contains s = true
    · simp only [pollList, if_pos hc, List.length_cons]
      have h1 := ih processed
      omega
    · simp only [pollList, if_neg hc, List.length_cons]
      have h1 := processTransaction_length_le env processed s address
      have h2 := ih (processTransaction env processed s address).processed
      omega

theorem pollList_dedup (env : MonitorEnv) (address sig : String) :
    ∀ (sigs processed : List String), sig ∈ processed →
      processed.length + sigs.length ≤ 1000 →
      sig ∉ (pollList env address processed sigs).classifierCalls ∧
      (∀ e ∈ (pollList env address processed sigs).emissions, e.signature ≠ sig) ∧
      sig ∈ (pollList env address processed sigs).processed := by
  intro sigs
  induction sigs with
  | nil =>
    intro processed h _
    exact ⟨by simp [pollList], by simp [pollList], by simpa [pollList] using h⟩
  | cons s rest ih =>
    intro processed h hb
    simp only [List.length_cons] at hb
    by_cases hc : processed.contains s = true
    · simp only [pollList, if_pos hc]
      exact ih processed h (by omega)
    · simp only [pollList, if_neg hc]
      have hs : s ≠ sig := by
        intro he
        exact hc (he ▸ contains_iff_mem.mpr h)
      have hlt : processed.length < 1000 := by omega
      have h1 : sig ∈ (processTransaction env processed s address).processed :=
        mem_processTransaction_processed_of_lt hlt h
      have hlen := processTransaction_length_le env processed s address
      obtain ⟨ihc, ihe, ihp⟩ :=
        ih (processTransaction env processed s address).processed h1 (by omega)
      refine ⟨?_, ?_, ihp⟩
      · intro hmem
        rcases List.mem_append.mp hmem with h2 | h2
        · exact hs (processTransaction_calls_eq env processed s address h2).symm
        · exact ihc h2
      · intro e he
        rcases List.mem_append.mp he with h2 | h2
        · rw [processTransaction_emissions_sig env processed s address h2]
          exact fun hcon => hs hcon
        · exact ihe e h2

theorem runTicks_dedup (env : MonitorEnv) (address sig : String) :
    ∀ (windows : List (List String)) (processed : List String), sig ∈ processed →
      processed.length + (windows.map List.length).sum ≤ 1000 →
      (∀ trace ∈ (runTicks env address processed windows).2, sig ∉ trace) ∧
      sig ∈ (runTicks env address processed windows).1 := by
  intro windows
  induction windows with
  | nil =>
    intro processed h _
    exact ⟨by simp [runTicks], by simpa [runTicks] using h⟩
  | cons w ws ih =>
    intro processed h hb
    simp only [List.map_cons, List.sum_cons] at hb
    obtain ⟨hc, _, hp⟩ := pollList_dedup env address sig w processed h (by omega)
    have hlen := pollList_length_le env address w processed
    obtain ⟨ihtr, ihp⟩ := ih (pollList env address processed w).processed hp (by omega)
    constructor
    · intro trace htr
      simp only [runTicks, List.mem_cons] at htr
      rcases htr with h2 | h2
      · rw [h2]
        exact hc
      · exact ihtr trace h2
    · simpa [runTicks] using ihp

/-- Claim C1 (amended): while a signature remains in the Dedup Ledger,
the polling channel and the account-notification channel never re-invoke
the classifier on it and never emit a further event for it; since the
ledger retains only the 1000 most recent signatures, this is guaranteed
for any tick, or sequence of ticks, that cannot evict it (ledger entries
plus window sizes within 1000).  After 1000 newer marks the signature is
evicted and the polling channel re-processes it, and the
logs-notification channel bypasses the ledger check entirely; both
failures are exhibited by the counterexample. -/
theorem c1_dedup_polling_and_account (env : MonitorEnv) (address sig : String)
    (processed : List String) (h : sig ∈ processed) :
    (∀ sigs : List String, processed.length + sigs.length ≤ 1000 →
      sig ∉ (pollList env address processed sigs).classifierCalls ∧
      ∀ e ∈ (pollList env address processed sigs).emissions, e.signature ≠ sig) ∧
    (∀ windows : List (List String),
      processed.length + (windows.map List.length).sum ≤ 1000 →
      ∀ trace ∈ (runTicks env address processed windows).2, sig ∉ trace) ∧
    (∀ monitored owner,
      processed.length + (env.getSignaturesForAddress owner).length ≤ 1000 →
      sig ∉ (handleAccountNotification env processed monitored owner).2.classifierCalls ∧
      ∀ e ∈ (handleAccountNotification env processed monitored owner).2.emissions,
        e.signature ≠ sig) := by
  refine ⟨?_, ?_, ?_⟩
  · intro sigs hb
    obtain ⟨h1, h2, _⟩ := pollList_dedup env address sig sigs processed h hb
    exact ⟨h1, h2⟩
  · intro windows hb
    exact (runTicks_dedup env address sig windows processed h hb).1
  · intro monitored owner hb
    unfold handleAccountNotification
    by_cases hm : monitored.contains owner = true
    · rw [if_pos hm]
      obtain ⟨h1, h2, _⟩ :=
        pollList_dedup env owner sig (env.getSignaturesForAddress owner) processed h hb
      exact ⟨h1, h2⟩
    · rw [if_neg hm]
      exact ⟨by simp, by simp⟩

def envLogs : MonitorEnv :=
  { services := envNoPrices
    getTransaction := fun s => if s == "sigX" then some txTransferBoth else none
    getSignaturesForAddress := fun _ => ["sigX"] }

def txPoll (sig : String) (bt : Int) : RawTransaction :=
  { signatures := [sig]
    accountKeys := ["walletA"]
    instructions := [{ programId := systemProgramId }]
    blockTime := some bt
    meta :=
      { preBalances := [0]
        postBalances := [1000]
        preTokenBalances := []
        postTokenBalances := [] } }

def fillerSigs : List String :=
  (List.range 999).map (fun i => "fill" ++ Nat.repr i)

/-- A full 1000-entry Dedup Ledger whose oldest entry is sigOld. -/
def evictLedger : List String :=
  "sigOld" :: fillerSigs

def envEvict : MonitorEnv :=
  { services := envNoPrices
    getTransaction := fun s =>
      if s == "sNew" then some (txPoll "sNew" 400)
      else if s == "sigOld" then some (txPoll "sigOld" 50)
      else none
    getSignaturesForAddress := fun _ => ["sNew", "sigOld"] }

set_option maxRecDepth 100000 in
/-- Claim C1 counterexample, refuting the claim on both channel kinds.
Logs channel: with sigX already marked processed, a logs notification
whose lines contain a monitored address re-invokes the classifier on
sigX and emits a further event (no ledger check).  Polling channel: with
sigOld marked processed as the oldest of 1000 ledger entries, a single
poll tick that first marks a newer novel signature trims sigOld out of
the ledger and then re-invokes the classifier on sigOld and re-emits
it. -/
theorem c1_counterexample :
    ("sigX" ∈ (["sigX"] : List String)) ∧
    (handleLogsNotification envLogs ["sigX"] ["walletA"] "sigX"
      ["log mentions walletA"]).classifierCalls = ["sigX"] ∧
    (handleLogsNotification envLogs ["sigX"] ["walletA"] "sigX"
      ["log mentions walletA"]).emissions.map Emission.signature = ["sigX"] ∧
    ("sigOld" ∈ evictLedger) ∧
    evictLedger.length = 1000 ∧
    (pollRecentTransactions envEvict evictLedger "walletA").classifierCalls =
      ["sNew", "sigOld"] ∧
    (pollRecentTransactions envEvict evictLedger "walletA").emissions.map
      Emission.signature = ["sNew", "sigOld"] := by
  decide

theorem c1_dedup_polling_and_account_witness :
    ("sigX" ∈ (["sigX"] : List String)) ∧
    "sigX" ∉ (pollList envLogs "walletA" ["sigX"] ["sigX", "s2"]).classifierCalls ∧
    "sigX" ∉ (runTicks envLogs "walletA" ["sigX"]
      [["sigX"], ["sigX"]]).2.getD 0 [] ∧
    "sigX" ∉ (handleAccountNotification envLogs ["sigX"]
      ["walletA"] "walletA").2.classifierCalls := by
  have h := c1_dedup_polling_and_account envLogs "walletA" "sigX" ["sigX"] (by decide)
  refine ⟨by decide, (h.1 ["sigX", "s2"] (by decide)).1, ?_,
    (h.2.2 ["walletA"] "walletA" (by decide)).1⟩
  exact h.2.1 [["sigX"], ["sigX"]] (by decide) _ (by decide)

/-! ### Claim C2 -/

/-- Claim C2 (amended): within a poll tick the novel signatures among the
fetched window are processed in the order the chain data source returned
them — newest first — not oldest first: for any window that the 1000-entry
ledger trim cannot disturb mid-tick (ledger entries plus window size
within 1000), the classifier-call sequence is exactly the api-order
window filtered to signatures that are not yet in the Dedup Ledger and
whose transaction fetch succeeds. -/
theorem c2_poll_processes_api_order (env : MonitorEnv) (address : String)
    (sigs processed : List String) (hnd : sigs.Nodup)
    (hb : processed.length + sigs.length ≤ 1000) :
    (pollList env address processed sigs).classifierCalls =
      sigs.filter (fun s => !processed.contains s && (env.getTransaction s).isSome) := by
  induction sigs generalizing processed with
  | nil => rfl
  | cons s rest ih =>
    have hnd' : rest.Nodup := (List.nodup_cons.mp hnd).2
    have hs : s ∉ rest := (List.nodup_cons.mp hnd).1
    simp only [List.length_cons] at hb
    by_cases hc : processed.contains s = true
    · simp only [pollList, if_pos hc]
      rw [ih processed hnd' (by omega)]
      rw [List.filter_cons]
      simp [contains_iff_mem.mp hc]
    · simp only [pollList, if_neg hc]
      have hnm : s ∉ processed := fun hmem => hc (contains_iff_mem.mpr hmem)
      have hlt : processed.length < 1000 := by omega
      have hlen := processTransaction_length_le env processed s address
      have hfil : rest.filter
          (fun x => !(processTransaction env processed s address).processed.contains x &&
            (env.getTransaction x).isSome) =
          rest.filter (fun x => !processed.contains x && (env.getTransaction x).isSome) := by
        apply List.filter_congr
        intro x hx
        have hxs : x ≠ s := fun he => hs (he ▸ hx)
        rcases processTransaction_processed_cases_of_lt env processed s address hlt
          with hp | hp
        · rw [hp]
        · rw [hp, mem_contains_append_singleton hxs]
      cases hig : env.getTransaction s with
      | none =>
        have hr1 : processTransaction env processed s address =
            { processed := processed, emissions := [], classifierCalls := [] } := by
          unfold processTransaction
          simp only [hig]
        rw [hr1] at hfil ⊢
        simp only [List.nil_append]
        rw [ih processed hnd' (by omega)]
        rw [List.filter_cons]
        simp [hig, hnm]
      | some tx =>
        have hcalls : (processTransaction env processed s address).classifierCalls = [s] := by
          unfold processTransaction
          simp only [hig]
          cases parseTransaction env.services (some tx) address <;> rfl
        rw [hcalls]
        rw [ih (processTransaction env processed s address).processed hnd' (by omega), hfil]
        rw [List.filter_cons]
        simp [hig, hnm]

def envC2 : MonitorEnv :=
  { services := envNoPrices
    getTransaction := fun s =>
      if s == "s1" then some (txPoll "s1" 100)
      else if s == "s2" then some (txPoll "s2" 200)
      else if s == "s3" then some (txPoll "s3" 300)
      else none
    getSignaturesForAddress := fun _ => ["s3", "s2", "s1"] }

/-- Claim C2 counterexample: a poll tick whose window holds three novel
signatures with block times 100 < 200 < 300, returned by the api newest
first as s3, s2, s1, invokes the classifier and emits in the order
s3, s2, s1 — newest first, not oldest first. -/
theorem c2_counterexample :
    envC2.getSignaturesForAddress "walletA" = ["s3", "s2", "s1"] ∧
    (envC2.getTransaction "s1").bind RawTransaction.blockTime = some 100 ∧
    (envC2.getTransaction "s2").bind RawTransaction.blockTime = some 200 ∧
    (envC2.getTransaction "s3").bind RawTransaction.blockTime = some 300 ∧
    (pollRecentTransactions envC2 [] "walletA").classifierCalls = ["s3", "s2", "s1"] ∧
    (pollRecentTransactions envC2 [] "walletA").emissions.map Emission.signature =
      ["s3", "s2", "s1"] ∧
    (["s3", "s2", "s1"] : List String) ≠ ["s1", "s2", "s3"] := by
  decide

theorem c2_poll_processes_api_order_witness :
    (["s3", "s2", "s1"] : List String).Nodup ∧
    (pollList envC2 "walletA" ["s2"] ["s3", "s2", "s1"]).classifierCalls =
      (["s3", "s2", "s1"] : List String).filter
        (fun s => !(["s2"] : List String).contains s && (envC2.getTransaction s).isSome) := by
  exact ⟨by decide,
    c2_poll_processes_api_order envC2 "walletA" ["s3", "s2", "s1"] ["s2"] (by decide)
      (by decide)⟩

/-! ### Claim C10 -/

theorem processTransaction_null (env : MonitorEnv) (address sig : String)
    (tx : RawTransaction) (hfetch : env.getTransaction sig = some tx)
    (hnull : parseTransaction env.services (some tx) address = none)
    (processed : List String) :
    processTransaction env processed sig address =
      { processed := processed, emissions := [], classifierCalls := [sig] } := by
  unfold processTransaction
  simp only [hfetch, hnull]

theorem pollList_null_sig (env : MonitorEnv) (address sig : String)
    (tx : RawTransaction) (hfetch : env.getTransaction sig = some tx)
    (hnull : parseTransaction env.services (some tx) address = none) :
    ∀ (sigs processed : List String), sig ∉ processed →
      (sig ∈ sigs → sig ∈ (pollList env address processed sigs).classifierCalls) ∧
      sig ∉ (pollList env address processed sigs).processed := by
  intro sigs
  induction sigs with
  | nil =>
    intro processed h
    exact ⟨fun hmem => absurd hmem (by simp), by simpa [pollList] using h⟩
  | cons s rest ih =>
    intro processed h
    by_cases hc : processed.contains s = true
    · have hsneq : sig ≠ s := by
        intro he
        exact h (he ▸ contains_iff_mem.mp hc)
      simp only [pollList, if_pos hc]
      obtain ⟨ih1, ih2⟩ := ih processed h
      refine ⟨?_, ih2⟩
      intro hmem
      rcases List.mem_cons.mp hmem with he | hm
      · exact absurd he hsneq
      · exact ih1 hm
    · simp only [pollList, if_neg hc]
      by_cases hse : s = sig
      · subst hse
        rw [processTransaction_null env address s tx hfetch hnull processed]
        obtain ⟨_, ih2⟩ := ih processed h
        exact ⟨fun _ => List.mem_append.mpr (Or.inl (by simp)), ih2⟩
      · have hnp : sig ∉ (processTransaction env processed s address).processed := by
          rcases processTransaction_processed_cases env processed s address with hp | hp
          · rw [hp]; exact h
          · rw [hp]
            intro hmem
            rcases mem_addProcessedTransaction hmem with h1 | h1
            · exact h h1
            · exact hse h1.symm
        obtain ⟨ih1, ih2⟩ := ih (processTransaction env processed s address).processed hnp
        refine ⟨?_, ih2⟩
        intro hmem
        rcases List.mem_cons.mp hmem with he | hm
        · exact absurd he (fun h2 => hse h2.symm)
        · exact List.mem_append.mpr (Or.inr (ih1 hm))

/-- Claim C10: a signature whose fetched transaction classifies to null is
never marked processed: processTransaction leaves the Dedup Ledger
untouched (while still invoking the classifier), and over any sequence of
poll ticks whose windows all contain the signature, every tick re-invokes
the classifier on it and it never enters the ledger. -/
theorem c10_null_classification_not_marked (env : MonitorEnv) (address sig : String)
    (tx : RawTransaction) (hfetch : env.getTransaction sig = some tx)
    (hnull : parseTransaction env.services (some tx) address = none) :
    (∀ processed, processTransaction env processed sig address =
      { processed := processed, emissions := [], classifierCalls := [sig] }) ∧
    (∀ (processed : List String) (windows : List (List String)), sig ∉ processed →
      (∀ w ∈ windows, sig ∈ w) →
      (∀ trace ∈ (runTicks env address processed windows).2, sig ∈ trace) ∧
      sig ∉ (runTicks env address processed windows).1) := by
  refine ⟨processTransaction_null env address sig tx hfetch hnull, ?_⟩
  intro processed windows
  induction windows generalizing processed with
  | nil =>
    intro h _
    exact ⟨by simp [runTicks], by simpa [runTicks] using h⟩
  | cons w ws ih =>
    intro h hw
    obtain ⟨h1, h2⟩ := pollList_null_sig env address sig tx hfetch hnull w processed h
    obtain ⟨ih1, ih2⟩ := ih (pollList env address processed w).processed h2
      (fun w' hw' => hw w' (List.mem_cons_of_mem w hw'))
    constructor
    · intro trace htr
      simp only [runTicks, List.mem_cons] at htr
      rcases htr with he | hm
      · rw [he]
        exact h1 (hw w (List.mem_cons_self w ws))
      · exact ih1 trace hm
    · simpa [runTicks] using ih2

def envNull : MonitorEnv :=
  { services := envNoPrices
    getTransaction := fun s => if s == "sigN" then some txNullClass else none
    getSignaturesForAddress := fun _ => ["sigN"] }

theorem c10_null_classification_not_marked_witness :
    processTransaction envNull ["other"] "sigN" "walletA" =
      { processed := ["other"], emissions := [], classifierCalls := ["sigN"] } ∧
    ("sigN" ∈ (runTicks envNull "walletA" [] [["sigN"], ["sigN"]]).2.getD 1 []) ∧
    "sigN" ∉ (runTicks envNull "walletA" [] [["sigN"], ["sigN"]]).1 := by
  have h := c10_null_classification_not_marked envNull "walletA" "sigN" txNullClass
    rfl (by decide)
  refine ⟨h.1 ["other"], by decide,
    (h.2 [] [["sigN"], ["sigN"]] (by decide) (by decide)).2⟩
